import Mathlib

/- Verification development for the multiplayer game server's worker-pool
   session engine: the TCP receiver's delimiter-framing accumulation loop
   (ReceiveDataFromClient), the outbound sender's fault-tolerance budget
   (CollectToSendUserRelatedDataToClient), the session-slot state machine
   (SetClientInformation / StartSendUserRelatedDataToClient), the event
   processor's shutdown behavior (ProcessIncoming), the startup capacity
   check (NewServer), and the HTTP login handler glue. -/

/-- Maximum single inbound read chunk in bytes (constant BUFFER_SIZE in worker_pool). -/
def BUFFER_SIZE : Nat := 4096

/-- The frame sentinel byte, the character 0x24 (constant BUFFER_DELIMITER in worker_pool). -/
def BUFFER_DELIMITER : Nat := 36

/-- Type tag of a Status frame (constant PACKET_TYPE_STATUS in worker_pool). -/
def PACKET_TYPE_STATUS : Nat := 0

/-- Type tag of an Attack frame (constant PACKET_TYPE_ATTACK in worker_pool). -/
def PACKET_TYPE_ATTACK : Nat := 1

/-- A decoded inbound event forwarded by the receiver to the game.StatusReceiver or
game.AttackReceiver channel.  The payload types are parameters because the concrete
payloads are protobuf messages decoded by an external library. -/
inductive Event (σ α : Type) where
  | status (s : σ)
  | attack (a : α)
deriving DecidableEq

/-- The inner loop of ReceiveDataFromClient that repeatedly calls
queueBuffer.ReadBytes(BUFFER_DELIMITER): it returns the list of complete frames
(each including its trailing delimiter byte, in arrival order) and the residual
bytes after the last delimiter, which the Go code writes back into the
accumulation buffer on io.EOF before breaking out of the loop. -/
def drainBuffer : List Nat → List (List Nat) × List Nat
  | [] => ([], [])
  | b :: rest =>
    if b = BUFFER_DELIMITER then
      ([BUFFER_DELIMITER] :: (drainBuffer rest).1, (drainBuffer rest).2)
    else
      match drainBuffer rest with
      | ([], r) => ([], b :: r)
      | (f :: fs, r) => ((b :: f) :: fs, r)

/-- The switch on data[0] in ReceiveDataFromClient, applied to one complete frame
(including its delimiter).  decS / decA stand for proto.Unmarshal on the Status and
Attack payloads: they return the populated struct plus a success flag, mirroring Go
where Unmarshal fills the message and separately returns an error.  On a decode
failure the Go code logs, fires the mutual-termination signal (the Bool here), and
still forwards the partially populated event; a frame whose tag is neither 0 nor 1
is silently skipped. -/
def processFrame {σ α : Type} (decS : List Nat → σ × Bool) (decA : List Nat → α × Bool) :
    List Nat → List (Event σ α) × Bool
  | [] => ([], false)
  | t :: rest =>
    if t = PACKET_TYPE_STATUS then
      ([Event.status (decS rest.dropLast).1], !(decS rest.dropLast).2)
    else if t = PACKET_TYPE_ATTACK then
      ([Event.attack (decA rest.dropLast).1], !(decA rest.dropLast).2)
    else ([], false)

/-- Processing of the successive complete frames drained from the accumulation
buffer during one read iteration: concatenates the forwarded events and ORs the
termination flags. -/
def processFrames {σ α : Type} (decS : List Nat → σ × Bool) (decA : List Nat → α × Bool) :
    List (List Nat) → List (Event σ α) × Bool
  | [] => ([], false)
  | f :: fs =>
    ((processFrame decS decA f).1 ++ (processFrames decS decA fs).1,
      (processFrame decS decA f).2 || (processFrames decS decA fs).2)

/-- State of the receiver loop: the residual accumulation buffer (queueBuffer), the
events forwarded so far in order, and whether sendMutualTerminationSignal has been
fired. -/
structure RecvState (σ α : Type) where
  queue : List Nat
  events : List (Event σ α)
  term : Bool
deriving DecidableEq

/-- Outcome of one conn.Read in the default branch of the receiver's select loop:
a successful read of a chunk, a clean io.EOF, or a read error other than io.EOF
(which in Go may still deliver partially read bytes). -/
inductive ReadResult where
  | ok (chunk : List Nat)
  | eof
  | fail (chunk : List Nat)

/-- One default-branch iteration of ReceiveDataFromClient after conn.Read returned
the given chunk (readErr true for a non-EOF read error).  Follows the source order:
a non-EOF read error fires the termination signal but does not return; a read of
size >= BUFFER_SIZE fires the termination signal but does not return; a read of
size > 0 is appended to the accumulation buffer, which is then drained frame by
frame. -/
def recvProcess {σ α : Type} (decS : List Nat → σ × Bool) (decA : List Nat → α × Bool)
    (st : RecvState σ α) (chunk : List Nat) (readErr : Bool) : RecvState σ α :=
  if 0 < chunk.length then
    ⟨(drainBuffer (st.queue ++ chunk)).2,
      st.events ++ (processFrames decS decA (drainBuffer (st.queue ++ chunk)).1).1,
      ((st.term || readErr) || decide (BUFFER_SIZE ≤ chunk.length))
        || (processFrames decS decA (drainBuffer (st.queue ++ chunk)).1).2⟩
  else
    ⟨st.queue, st.events, (st.term || readErr) || decide (BUFFER_SIZE ≤ chunk.length)⟩

/-- One receiver iteration on a read outcome.  A clean io.EOF hits the explicit
continue in the source: nothing is processed and the session is not terminated. -/
def recvStep {σ α : Type} (decS : List Nat → σ × Bool) (decA : List Nat → α × Bool)
    (st : RecvState σ α) : ReadResult → RecvState σ α
  | ReadResult.eof => st
  | ReadResult.ok chunk => recvProcess decS decA st chunk false
  | ReadResult.fail chunk => recvProcess decS decA st chunk true

/-- The receiver's outer for/select loop over successive read outcomes.  Once the
mutual-termination signal has been fired, the termination context is done, so the
next select iteration takes a non-default case and returns instead of reading
again (Termination Coordinator behavior per the spec); hence no further read is
processed once term is set. -/
def runReceiverFrom {σ α : Type} (decS : List Nat → σ × Bool) (decA : List Nat → α × Bool) :
    RecvState σ α → List ReadResult → RecvState σ α
  | st, [] => st
  | st, r :: rs =>
    if st.term then st else runReceiverFrom decS decA (recvStep decS decA st r) rs

/-- Initial receiver state: empty accumulation buffer (bytes.NewBuffer(nil)), no
events forwarded, termination not signaled. -/
def initialRecvState {σ α : Type} : RecvState σ α := ⟨[], [], false⟩

/-- ReceiveDataFromClient's processing of a whole sequence of read outcomes,
starting from the initial state. -/
def runReceiver {σ α : Type} (decS : List Nat → σ × Bool) (decA : List Nat → α × Bool)
    (reads : List ReadResult) : RecvState σ α :=
  runReceiverFrom decS decA initialRecvState reads

/-- The wire encoding of one event: type-tag byte, serialized payload, then the
delimiter byte (spec section 6: Frame = [type: 1 byte][payload: N bytes][delimiter]). -/
def encodeEvent {σ α : Type} (encS : σ → List Nat) (encA : α → List Nat) :
    Event σ α → List Nat
  | Event.status s => PACKET_TYPE_STATUS :: (encS s ++ [BUFFER_DELIMITER])
  | Event.attack a => PACKET_TYPE_ATTACK :: (encA a ++ [BUFFER_DELIMITER])

/-- The part of an encoded frame before the delimiter: tag byte plus payload. -/
def frameBody {σ α : Type} (encS : σ → List Nat) (encA : α → List Nat) :
    Event σ α → List Nat
  | Event.status s => PACKET_TYPE_STATUS :: encS s
  | Event.attack a => PACKET_TYPE_ATTACK :: encA a

/-- Concatenation of the encoded frames of a message sequence: the inbound byte
stream as the client produces it. -/
def encodeStream {σ α : Type} (encS : σ → List Nat) (encA : α → List Nat) :
    List (Event σ α) → List Nat
  | [] => []
  | e :: rest => encodeEvent encS encA e ++ encodeStream encS encA rest

/-- Concatenation of read chunks back into the underlying byte stream. -/
def joinChunks : List (List Nat) → List Nat
  | [] => []
  | c :: cs => c ++ joinChunks cs

/-- Modelled from the spec: a concrete executable payload codec standing in for the
external protobuf serialization of a Status payload, which is library code not in
src.  A Status stands for its serialized size here; the encoding is a run of zero
bytes, so it never contains the delimiter byte and round-trips exactly. -/
def encStatusModel (s : Nat) : List Nat := List.replicate s 0

/-- Modelled from the spec: decoder matching encStatusModel, with an explicit
failure flag as proto.Unmarshal has (failure leaves the zero value, as Go does). -/
def decStatusModel (l : List Nat) : Nat × Bool :=
  if l.all (fun b => b == 0) then (l.length, true) else (0, false)

/-- Modelled from the spec: stand-in for the protobuf serialization of an Attack
payload (a run of one bytes). -/
def encAttackModel (a : Nat) : List Nat := List.replicate a 1

/-- Modelled from the spec: decoder matching encAttackModel. -/
def decAttackModel (l : List Nat) : Nat × Bool :=
  if l.all (fun b => b == 1) then (l.length, true) else (0, false)

/-- One select-arm activation of the sender loop returned by
CollectToSendUserRelatedDataToClient: the three stop signals, or a broadcast tick
with the observed facts of that tick (whether userStatuses.GetUserStatus found the
user, and whether conn.Write succeeded). -/
inductive SenderEvent where
  | termination
  | stopSend
  | forceExit
  | broadcast (userPresent : Bool) (writeOk : Bool)
deriving DecidableEq

/-- How the sender loop ended: input exhausted while still looping, a clean return
(one of the three stop signals), or the panic on fault-budget exhaustion. -/
inductive SenderExit where
  | ranOut
  | returned
  | panicked
deriving DecidableEq

/-- Sender-loop state: the faultTolerance countdown (an int starting at 100, only
ever decremented) and the number of times the user was deregistered from the
game-map, user-status, and scoreboard collaborators (the three RemoveUser calls
are always performed together). -/
structure SenderState where
  faultTolerance : Int
  deregistrations : Nat
deriving DecidableEq

/-- One iteration of the sender's for/select loop.  A missing user status or a
successful write just continues; a failed write decrements faultTolerance and, when
the budget reaches zero, deregisters the user from all three collaborators and
panics.  The counter is never reset on a successful write. -/
def senderStep (st : SenderState) : SenderEvent → SenderState × Option SenderExit
  | SenderEvent.termination => (st, some SenderExit.returned)
  | SenderEvent.stopSend => (st, some SenderExit.returned)
  | SenderEvent.forceExit => (st, some SenderExit.returned)
  | SenderEvent.broadcast userPresent writeOk =>
    if userPresent && !writeOk then
      if st.faultTolerance - 1 ≤ 0 then
        (⟨st.faultTolerance - 1, st.deregistrations + 1⟩, some SenderExit.panicked)
      else
        (⟨st.faultTolerance - 1, st.deregistrations⟩, none)
    else (st, none)

/-- The sender loop over a list of select-arm activations, stopping at the first
return or panic. -/
def runSender : SenderState → List SenderEvent → SenderState × SenderExit
  | st, [] => (st, SenderExit.ranOut)
  | st, e :: rest =>
    match senderStep st e with
    | (st2, some x) => (st2, x)
    | (st2, none) => runSender st2 rest

/-- The state the sender starts with: faultTolerance := 100, no deregistration yet. -/
def initialSenderState : SenderState := ⟨100, 0⟩

/-- Whether a sender event is a broadcast tick. -/
def SenderEvent.isBroadcast : SenderEvent → Bool
  | SenderEvent.broadcast _ _ => true
  | _ => false

/-- Whether a sender event is a broadcast tick on which the user was present and
conn.Write failed, i.e. a tick that decrements the fault budget. -/
def isFailedWrite : SenderEvent → Bool
  | SenderEvent.broadcast userPresent writeOk => userPresent && !writeOk
  | _ => false

/-- Number of fault-budget-decrementing ticks in a sender-event list. -/
def failCount : List SenderEvent → Nat
  | [] => 0
  | e :: rest => (if isFailedWrite e then 1 else 0) + failCount rest

/-- Session-slot statuses (package worker_status plus worker_pool.TERMINATED). -/
inductive WorkerStatus where
  | AVAILABLE
  | PULLED_OUT
  | CLIENT_INFORMATION_RECEIVED
  | WORKING
  | TERMINATED
deriving DecidableEq

/-- A session slot (worker_pool.Worker): its status, the owner and client-address
fields set by SetClientInformation, whether the mandatory SendUserRelatedDataToClient
routine is registered (non-nil), and the slot's own listening port. -/
structure Worker where
  status : WorkerStatus
  ownerUserID : String
  clientIP : Option (List Nat)
  clientPort : Int
  hasSendRoutine : Bool
  port : Nat
deriving DecidableEq

/-- Result of a call to SetClientInformation: the slot afterwards, the returned
error (the Go error message, nil on success), and whether a force-exit signal was
sent on the slot's ForceExitSignal channel. -/
structure SetClientResult where
  worker : Worker
  error : Option String
  forceExitSignaled : Bool
deriving DecidableEq

/-- Worker.SetClientInformation from worker_pool: requires status PULLED_OUT; on
any other status it sends the force-exit signal and returns an error, leaving the
slot untouched; otherwise it records the client information and moves the slot to
CLIENT_INFORMATION_RECEIVED. -/
def SetClientInformation (w : Worker) (userId : String) (clientIP : Option (List Nat))
    (clientPort : Int) : SetClientResult :=
  if w.status ≠ WorkerStatus.PULLED_OUT then
    ⟨w, some "INVALID STATUS CHANGE: WORKER STATUS NOT \"IDLE\"", true⟩
  else
    ⟨{ w with
        status := WorkerStatus.CLIENT_INFORMATION_RECEIVED
        ownerUserID := userId
        clientIP := clientIP
        clientPort := clientPort },
      none, false⟩

/-- Result of a call to StartSendUserRelatedDataToClient: the slot afterwards, the
returned error, whether a force-exit signal was sent, and whether the send
goroutine was started. -/
structure StartSendResult where
  worker : Worker
  error : Option String
  forceExitSignaled : Bool
  sendStarted : Bool
deriving DecidableEq

/-- Worker.StartSendUserRelatedDataToClient from worker_pool: requires status
CLIENT_INFORMATION_RECEIVED and a registered send routine; on violation it sends
the force-exit signal and returns an error without changing the status; otherwise
it moves the slot to WORKING and starts the send goroutine. -/
def StartSendUserRelatedDataToClient (w : Worker) : StartSendResult :=
  if w.status ≠ WorkerStatus.CLIENT_INFORMATION_RECEIVED then
    ⟨w, some "INVALID STATUS CHANGE: WORKER STATUS NOT \"CLIENT_INFORMATION_RECEIVED\"",
      true, false⟩
  else if !w.hasSendRoutine then
    ⟨w,
      some "INVALID STATUS CHANGE: worker does not have mandatory property(SendUserRelatedDataToClient)",
      true, false⟩
  else
    ⟨{ w with status := WorkerStatus.WORKING }, none, false, true⟩

/-- A user position as carried by inbound Status events (game_map.Position). -/
structure Position where
  x : Int
  y : Int
deriving DecidableEq

/-- A decoded inbound status message (game_map.Status) as consumed by
ProcessIncoming. -/
structure GameStatus where
  id : String
  currentPosition : Position
deriving DecidableEq

/-- One select-arm activation of ProcessIncoming: a status event from the shared
receiver channel, a force-exit signal, a liveness ping, or the mutual-termination
signal. -/
inductive ProcEvent where
  | status (s : GameStatus)
  | forceExit
  | health
  | mutualTermination
deriving DecidableEq

/-- Event-processor state: the paired slot's status field (written directly by
ProcessIncoming) and the sequence of GameMap.UpdateUserPosition calls made. -/
structure ProcState where
  workerStatus : WorkerStatus
  appliedUpdates : List GameStatus
deriving DecidableEq

/-- How the processor loop ended. -/
inductive ProcExit where
  | ranOut
  | returned
  | panicked
deriving DecidableEq

/-- One iteration of ProcessIncoming's for/select loop: a status event is applied
to the game map; a force-exit signal panics (so the deferred mutual-termination
send tears down the paired receiver and sender); a liveness ping is echoed back;
the mutual-termination signal marks the slot TERMINATED and returns. -/
def procStep (st : ProcState) : ProcEvent → ProcState × Option ProcExit
  | ProcEvent.status s => (⟨st.workerStatus, st.appliedUpdates ++ [s]⟩, none)
  | ProcEvent.forceExit => (st, some ProcExit.panicked)
  | ProcEvent.health => (st, none)
  | ProcEvent.mutualTermination =>
    (⟨WorkerStatus.TERMINATED, st.appliedUpdates⟩, some ProcExit.returned)

/-- ProcessIncoming's loop over a list of select-arm activations. -/
def runProcessor : ProcState → List ProcEvent → ProcState × ProcExit
  | st, [] => (st, ProcExit.ranOut)
  | st, e :: rest =>
    match procStep st e with
    | (st2, some x) => (st2, x)
    | (st2, none) => runProcessor st2 rest

/-- Modelled from the spec: worker_pool.GetAvailableWorkerCount (package source not
in src) counts the slots of the pool that are AVAILABLE. -/
def GetAvailableWorkerCount (pool : List Worker) : Nat :=
  (pool.filter (fun w => decide (w.status = WorkerStatus.AVAILABLE))).length

/-- Outcome of server construction: the startup panic, or a running server. -/
inductive ServerInit where
  | panicked
  | running
deriving DecidableEq

/-- The startup invariant check at the top of server.NewServer: if the pool does
not hold exactly workerCount (worker_pool.WORKER_COUNT, a configured constant)
available slots after LaunchWorkers, the process panics before any handler is
registered; otherwise construction proceeds. -/
def NewServer (workerCount : Nat) (pool : List Worker) : ServerInit :=
  if GetAvailableWorkerCount pool ≠ workerCount then ServerInit.panicked
  else ServerInit.running

/-- Response and side effects of one GET /get-worker-port request: HTTP status
code, body, the final state of the pulled worker (if any), and the scoreboard
mapping afterwards. -/
structure LoginResult where
  statusCode : Nat
  body : String
  finalWorker : Option Worker
  scoreboard : String → Option Int

/-- The GET /get-worker-port/{userId}/{clientPort} handler in server.NewServer.
Inputs that fail validation get 400; a failed Pull gets 409.  Otherwise the
handler calls SetClientInformation and StartSendUserRelatedDataToClient while
discarding both returned errors, always answers 200 with the worker's port, and
writes score 0 for the user into the scoreboard. -/
def handleGetWorkerPort (userId : String) (clientPort : Option Int)
    (clientIP : Option (List Nat)) (pullResult : Option Worker)
    (scoreboard : String → Option Int) : LoginResult :=
  if clientIP = none ∨ clientPort = none ∨ userId = "" then
    ⟨400, "client information invalid", none, scoreboard⟩
  else
    match pullResult with
    | none => ⟨409, "worker currently not available", none, scoreboard⟩
    | some worker =>
      ⟨200, toString worker.port,
        some (StartSendUserRelatedDataToClient
          (SetClientInformation worker userId clientIP (clientPort.getD 0)).worker).worker,
        fun u => if u = userId then some 0 else scoreboard u⟩

/-- Draining a buffer that contains no delimiter yields no frame and leaves the
buffer as residual. -/
theorem drainBuffer_no_delim (l : List Nat) (h : BUFFER_DELIMITER ∉ l) :
    drainBuffer l = ([], l) := by
  induction l with
  | nil => rfl
  | cons b rest ih =>
    have hb : ¬b = BUFFER_DELIMITER := fun hh => h (by simp [hh])
    have h2 := ih (fun hh => h (List.mem_cons_of_mem _ hh))
    simp [drainBuffer, hb, h2]

/-- Draining a buffer that starts with a complete frame (delimiter-free body
followed by the delimiter) yields that frame first. -/
theorem drainBuffer_frame (body rest : List Nat) (h : BUFFER_DELIMITER ∉ body) :
    drainBuffer (body ++ BUFFER_DELIMITER :: rest) =
      ((body ++ [BUFFER_DELIMITER]) :: (drainBuffer rest).1, (drainBuffer rest).2) := by
  induction body with
  | nil => simp [drainBuffer]
  | cons x body' ih =>
    have hx : ¬x = BUFFER_DELIMITER := fun hh => h (by simp [hh])
    have h' : BUFFER_DELIMITER ∉ body' := fun hh => h (List.mem_cons_of_mem _ hh)
    simp [drainBuffer, hx, ih h']

/-- A byte list equal to a frame body plus delimiter plus rest either is a
delimiter-free proper prefix, or contains the whole frame. -/
theorem append_eq_frame_cases :
    ∀ (body B suffix rest : List Nat),
      B ++ suffix = body ++ BUFFER_DELIMITER :: rest →
      BUFFER_DELIMITER ∉ body →
      BUFFER_DELIMITER ∉ B ∨
        ∃ B2, B = body ++ BUFFER_DELIMITER :: B2 ∧ B2 ++ suffix = rest := by
  intro body
  induction body with
  | nil =>
    intro B suffix rest h _
    cases B with
    | nil => exact Or.inl (by simp)
    | cons b B2 =>
      rw [List.cons_append, List.nil_append] at h
      have hb : b = BUFFER_DELIMITER ∧ B2 ++ suffix = rest := by
        constructor
        · exact (List.cons.injEq _ _ _ _ ▸ h).1
        · exact (List.cons.injEq _ _ _ _ ▸ h).2
      exact Or.inr ⟨B2, by simp [hb.1], hb.2⟩
  | cons x body' ih =>
    intro B suffix rest h hnb
    cases B with
    | nil => exact Or.inl (by simp)
    | cons b B2 =>
      rw [List.cons_append, List.cons_append] at h
      have hbx : b = x ∧ B2 ++ suffix = body' ++ BUFFER_DELIMITER :: rest := by
        constructor
        · exact (List.cons.injEq _ _ _ _ ▸ h).1
        · exact (List.cons.injEq _ _ _ _ ▸ h).2
      have hxd : ¬x = BUFFER_DELIMITER := fun hh => hnb (by simp [hh])
      have hnb' : BUFFER_DELIMITER ∉ body' := fun hh => hnb (List.mem_cons_of_mem _ hh)
      rcases ih B2 suffix rest hbx.2 hnb' with hl | ⟨B3, hB3, hs⟩
      · left
        intro hm
        rcases List.mem_cons.mp hm with hm1 | hm2
        · exact hxd (hbx.1 ▸ hm1.symm) |>.elim
        · exact hl hm2
      · right
        exact ⟨B3, by rw [hbx.1, hB3]; simp, hs⟩

/-- Dropping the last element of a list with one element appended gives the list
back. -/
theorem dropLast_append_single (l : List Nat) (a : Nat) : (l ++ [a]).dropLast = l := by
  induction l with
  | nil => rfl
  | cons x xs ih =>
    cases xs with
    | nil => rfl
    | cons y ys => exact congrArg (List.cons x) ih

/-- The body of an encoded frame is delimiter-free when the payload encoders are. -/
theorem frameBody_no_delim {σ α : Type} (encS : σ → List Nat) (encA : α → List Nat)
    (hSd : ∀ s, BUFFER_DELIMITER ∉ encS s) (hAd : ∀ a, BUFFER_DELIMITER ∉ encA a)
    (e : Event σ α) : BUFFER_DELIMITER ∉ frameBody encS encA e := by
  cases e with
  | status s =>
    simp only [frameBody, List.mem_cons]
    rintro (h | h)
    · simp [BUFFER_DELIMITER, PACKET_TYPE_STATUS] at h
    · exact hSd s h
  | attack a =>
    simp only [frameBody, List.mem_cons]
    rintro (h | h)
    · simp [BUFFER_DELIMITER, PACKET_TYPE_ATTACK] at h
    · exact hAd a h

/-- An encoded frame is its body followed by the delimiter. -/
theorem encodeEvent_eq_body {σ α : Type} (encS : σ → List Nat) (encA : α → List Nat)
    (e : Event σ α) :
    encodeEvent encS encA e = frameBody encS encA e ++ [BUFFER_DELIMITER] := by
  cases e <;> simp [encodeEvent, frameBody]

/-- Every encoded frame contains the delimiter. -/
theorem delim_mem_encodeEvent {σ α : Type} (encS : σ → List Nat) (encA : α → List Nat)
    (e : Event σ α) : BUFFER_DELIMITER ∈ encodeEvent encS encA e := by
  cases e <;> simp [encodeEvent]

/-- Draining any prefix of a well-formed encoded stream yields exactly the frames
of the fully contained messages, plus a delimiter-free residual that still lines
up with the rest of the stream. -/
theorem drain_prefix {σ α : Type} (encS : σ → List Nat) (encA : α → List Nat)
    (hSd : ∀ s, BUFFER_DELIMITER ∉ encS s) (hAd : ∀ a, BUFFER_DELIMITER ∉ encA a) :
    ∀ (future : List (Event σ α)) (B suffix : List Nat),
      B ++ suffix = encodeStream encS encA future →
      ∃ (done rest : List (Event σ α)) (r : List Nat),
        future = done ++ rest ∧
        drainBuffer B = (done.map (encodeEvent encS encA), r) ∧
        BUFFER_DELIMITER ∉ r ∧
        r ++ suffix = encodeStream encS encA rest := by
  intro future
  induction future with
  | nil =>
    intro B suffix h
    have hB : B = [] := by
      cases B with
      | nil => rfl
      | cons b bs =>
        have : (b :: bs ++ suffix).length = (encodeStream encS encA ([] : List (Event σ α))).length := by
          rw [h]
        simp [encodeStream] at this
    subst hB
    exact ⟨[], [], [], rfl, by simp [drainBuffer], by simp, h⟩
  | cons e fut ih =>
    intro B suffix h
    have hbody := frameBody_no_delim encS encA hSd hAd e
    have h' : B ++ suffix = frameBody encS encA e ++ BUFFER_DELIMITER :: encodeStream encS encA fut := by
      rw [show encodeStream encS encA (e :: fut) = encodeEvent encS encA e ++ encodeStream encS encA fut from rfl,
        encodeEvent_eq_body] at h
      simpa [List.append_assoc] using h
    rcases append_eq_frame_cases _ _ _ _ h' hbody with hleft | ⟨B2, hB, hB2⟩
    · exact ⟨[], e :: fut, B, rfl, by simpa using drainBuffer_no_delim B hleft, hleft, h⟩
    · rcases ih B2 suffix hB2 with ⟨done, rest, r, hfut, hdrain, hr, hrs⟩
      refine ⟨e :: done, rest, r, by rw [hfut]; rfl, ?_, hr, hrs⟩
      rw [hB, drainBuffer_frame _ _ hbody, hdrain]
      simp [encodeEvent_eq_body]

/-- Appending frame lists concatenates their events and ORs their termination
flags. -/
theorem processFrames_append {σ α : Type} (decS : List Nat → σ × Bool)
    (decA : List Nat → α × Bool) (fs gs : List (List Nat)) :
    processFrames decS decA (fs ++ gs) =
      ((processFrames decS decA fs).1 ++ (processFrames decS decA gs).1,
        (processFrames decS decA fs).2 || (processFrames decS decA gs).2) := by
  induction fs with
  | nil => simp [processFrames]
  | cons f fs' ih => simp [processFrames, ih, Bool.or_assoc]

/-- Decoding the encoded frames of a message list recovers exactly that list, with
no decode failure, provided the payload codecs round-trip. -/
theorem processFrames_encode {σ α : Type} (encS : σ → List Nat) (decS : List Nat → σ × Bool)
    (encA : α → List Nat) (decA : List Nat → α × Bool)
    (hS : ∀ s, decS (encS s) = (s, true)) (hA : ∀ a, decA (encA a) = (a, true)) :
    ∀ msgs : List (Event σ α),
      processFrames decS decA (msgs.map (encodeEvent encS encA)) = (msgs, false) := by
  intro msgs
  induction msgs with
  | nil => rfl
  | cons e rest ih =>
    cases e with
    | status s =>
      simp [processFrames, processFrame, encodeEvent, ih, dropLast_append_single, hS s]
    | attack a =>
      simp [processFrames, processFrame, encodeEvent, ih, dropLast_append_single, hA a,
        PACKET_TYPE_ATTACK, PACKET_TYPE_STATUS]

/-- Invariant run of the receiver over successful reads of a valid stream: as long
as every read chunk stays below BUFFER_SIZE, the receiver forwards exactly the
fully delivered messages in order, never fires the termination signal, and keeps a
delimiter-free residual that lines up with the undelivered tail of the stream. -/
theorem run_chunks_aux {σ α : Type} (encS : σ → List Nat) (decS : List Nat → σ × Bool)
    (encA : α → List Nat) (decA : List Nat → α × Bool)
    (hS : ∀ s, decS (encS s) = (s, true)) (hA : ∀ a, decA (encA a) = (a, true))
    (hSd : ∀ s, BUFFER_DELIMITER ∉ encS s) (hAd : ∀ a, BUFFER_DELIMITER ∉ encA a) :
    ∀ (chunks : List (List Nat)) (st : RecvState σ α) (future : List (Event σ α)),
      st.term = false →
      BUFFER_DELIMITER ∉ st.queue →
      st.queue ++ joinChunks chunks = encodeStream encS encA future →
      (∀ c ∈ chunks, c.length < BUFFER_SIZE) →
      ∃ (done rest : List (Event σ α)) (r : List Nat),
        future = done ++ rest ∧
        BUFFER_DELIMITER ∉ r ∧
        r = encodeStream encS encA rest ∧
        runReceiverFrom decS decA st (chunks.map ReadResult.ok) =
          ⟨r, st.events ++ done, false⟩ := by
  intro chunks
  induction chunks with
  | nil =>
    intro st future hterm hq hjoin _
    refine ⟨[], future, st.queue, by simp, hq, by simpa [joinChunks] using hjoin, ?_⟩
    cases st with
    | mk q ev t => simp_all [runReceiverFrom]
  | cons c cs ih =>
    intro st future hterm hq hjoin hlen
    have hstep : runReceiverFrom decS decA st ((c :: cs).map ReadResult.ok) =
        runReceiverFrom decS decA (recvProcess decS decA st c false) (cs.map ReadResult.ok) := by
      simp [runReceiverFrom, recvStep, hterm]
    by_cases hc : 0 < c.length
    · have hjoin' : (st.queue ++ c) ++ joinChunks cs = encodeStream encS encA future := by
        simpa [joinChunks, List.append_assoc] using hjoin
      rcases drain_prefix encS encA hSd hAd future (st.queue ++ c) (joinChunks cs) hjoin'
        with ⟨done1, rest1, r1, hfut1, hdrain1, hr1, hrs1⟩
      have hsize : decide (BUFFER_SIZE ≤ c.length) = false := by
        simpa using Nat.not_le.mpr (hlen c (by simp))
      have hproc : recvProcess decS decA st c false =
          ⟨r1, st.events ++ done1, false⟩ := by
        rw [recvProcess, if_pos hc, hdrain1,
          processFrames_encode encS decS encA decA hS hA done1]
        simp [hterm, hsize]
      rcases ih ⟨r1, st.events ++ done1, false⟩ rest1 rfl hr1 hrs1
        (fun d hd => hlen d (by simp [hd])) with ⟨done2, rest2, r2, hfut2, hr2, hre2, hrun2⟩
      refine ⟨done1 ++ done2, rest2, r2, ?_, hr2, hre2, ?_⟩
      · rw [hfut1, hfut2, List.append_assoc]
      · rw [hstep, hproc, hrun2]
        simp [List.append_assoc]
    · have hc0 : c = [] := by
        cases c with
        | nil => rfl
        | cons x xs => simp at hc
      subst hc0
      have hproc : recvProcess decS decA st [] false = ⟨st.queue, st.events, false⟩ := by
        simp [recvProcess, hterm, BUFFER_SIZE]
      rcases ih ⟨st.queue, st.events, false⟩ future rfl hq (by simpa [joinChunks] using hjoin)
        (fun d hd => hlen d (by simp [hd])) with ⟨done2, rest2, r2, hfut2, hr2, hre2, hrun2⟩
      exact ⟨done2, rest2, r2, hfut2, hr2, hre2, by rw [hstep, hproc, hrun2]⟩

/-- A replicated byte passes an equality-with-itself scan. -/
theorem all_eq_replicate (n x : Nat) :
    (List.replicate n x).all (fun b => b == x) = true := by
  induction n with
  | zero => rfl
  | succ k ih => simp [List.replicate_succ, ih]

/-- The modelled Status payload codec round-trips. -/
theorem decStatusModel_enc (s : Nat) : decStatusModel (encStatusModel s) = (s, true) := by
  simp [decStatusModel, encStatusModel, all_eq_replicate]

/-- The modelled Attack payload codec round-trips. -/
theorem decAttackModel_enc (a : Nat) : decAttackModel (encAttackModel a) = (a, true) := by
  simp [decAttackModel, encAttackModel, all_eq_replicate]

/-- The modelled Status payload encoding never contains the delimiter byte. -/
theorem encStatusModel_no_delim (s : Nat) : BUFFER_DELIMITER ∉ encStatusModel s := by
  simp [encStatusModel, List.mem_replicate, BUFFER_DELIMITER]

/-- The modelled Attack payload encoding never contains the delimiter byte. -/
theorem encAttackModel_no_delim (a : Nat) : BUFFER_DELIMITER ∉ encAttackModel a := by
  simp [encAttackModel, List.mem_replicate, BUFFER_DELIMITER]

/-- C1 (amended): framing round-trip.  For every sequence of valid Status/Attack
messages — valid meaning the payload codec round-trips and the serialized payload
never contains the delimiter byte — encoded as tag byte, payload, delimiter,
concatenated, and split across arbitrary read-chunk boundaries in which every
single read delivers fewer than BUFFER_SIZE (4096) bytes, the receiver's
accumulation-buffer loop reconstructs and forwards exactly the original ordered
sequence of decoded events, empties its buffer, and never fires the termination
signal.  (The restriction to reads below BUFFER_SIZE is forced: a read that fills
the whole buffer fires the oversized-read termination even on a valid stream, see
the counterexample.) -/
theorem receiver_framing_roundtrip {σ α : Type} (encS : σ → List Nat)
    (decS : List Nat → σ × Bool) (encA : α → List Nat) (decA : List Nat → α × Bool)
    (msgs : List (Event σ α)) (chunks : List (List Nat))
    (hS : ∀ s, decS (encS s) = (s, true)) (hA : ∀ a, decA (encA a) = (a, true))
    (hSd : ∀ s, BUFFER_DELIMITER ∉ encS s) (hAd : ∀ a, BUFFER_DELIMITER ∉ encA a)
    (hjoin : joinChunks chunks = encodeStream encS encA msgs)
    (hlen : ∀ c ∈ chunks, c.length < BUFFER_SIZE) :
    runReceiver decS decA (chunks.map ReadResult.ok) = ⟨[], msgs, false⟩ := by
  rcases run_chunks_aux encS decS encA decA hS hA hSd hAd chunks initialRecvState msgs
    rfl (by simp [initialRecvState]) (by simpa [initialRecvState] using hjoin) hlen
    with ⟨done, rest, r, hf, hnr, hre, hrun⟩
  cases rest with
  | nil =>
    have hr0 : r = [] := by simpa [encodeStream] using hre
    have hd : done = msgs := by simpa using hf.symm
    rw [runReceiver, hrun, hr0, hd]
    simp [initialRecvState]
  | cons e rest' =>
    exfalso
    apply hnr
    rw [hre]
    exact List.mem_append.mpr (Or.inl (delim_mem_encodeEvent encS encA e))

/-- C1 witness: a concrete three-message stream split across five reads (one of
them empty) is reconstructed exactly. -/
theorem receiver_framing_roundtrip_witness :
    runReceiver decStatusModel decAttackModel
        ([[0, 0], [0, 36, 1], [], [1, 36, 0], [36]].map ReadResult.ok) =
      ⟨[], [Event.status 2, Event.attack 1, Event.status 0], false⟩ :=
  receiver_framing_roundtrip encStatusModel decStatusModel encAttackModel decAttackModel
    [Event.status 2, Event.attack 1, Event.status 0]
    [[0, 0], [0, 36, 1], [], [1, 36, 0], [36]]
    decStatusModel_enc decAttackModel_enc encStatusModel_no_delim encAttackModel_no_delim
    (by decide) (by decide)


/-- Stepping the receiver loop with the termination flag still clear performs one
read iteration. -/
theorem runReceiverFrom_cons_false {σ α : Type} (decS : List Nat → σ × Bool)
    (decA : List Nat → α × Bool) (q : List Nat) (ev : List (Event σ α))
    (r : ReadResult) (rs : List ReadResult) :
    runReceiverFrom decS decA ⟨q, ev, false⟩ (r :: rs) =
      runReceiverFrom decS decA (recvStep decS decA ⟨q, ev, false⟩ r) rs := by
  simp [runReceiverFrom]

/-- Once the termination flag is set, the receiver loop performs no further read. -/
theorem runReceiverFrom_cons_true {σ α : Type} (decS : List Nat → σ × Bool)
    (decA : List Nat → α × Bool) (q : List Nat) (ev : List (Event σ α))
    (r : ReadResult) (rs : List ReadResult) :
    runReceiverFrom decS decA ⟨q, ev, true⟩ (r :: rs) = ⟨q, ev, true⟩ := by
  simp [runReceiverFrom]


/-- A read iteration whose accumulated buffer contains no delimiter forms no
frame: the bytes are only appended to the buffer, and the termination flag is
the OR of the read-error and oversize conditions. -/
theorem recvProcess_no_frame {σ α : Type} (decS : List Nat → σ × Bool)
    (decA : List Nat → α × Bool) (q : List Nat) (ev : List (Event σ α)) (t : Bool)
    (c : List Nat) (rerr : Bool) (hnd : BUFFER_DELIMITER ∉ q ++ c) (hc : 0 < c.length) :
    recvProcess decS decA ⟨q, ev, t⟩ c rerr =
      ⟨q ++ c, ev, (t || rerr) || decide (BUFFER_SIZE ≤ c.length)⟩ := by
  simp only [recvProcess]
  rw [if_pos hc, drainBuffer_no_delim _ hnd]
  simp only [processFrames, Bool.or_false, List.append_nil]

/-- A read iteration whose accumulated buffer is exactly one complete frame
processes that frame and empties the buffer. -/
theorem recvProcess_one_frame {σ α : Type} (decS : List Nat → σ × Bool)
    (decA : List Nat → α × Bool) (q : List Nat) (ev : List (Event σ α)) (t : Bool)
    (c body : List Nat) (rerr : Bool)
    (hsplit : q ++ c = body ++ BUFFER_DELIMITER :: []) (hnd : BUFFER_DELIMITER ∉ body)
    (hc : 0 < c.length) :
    recvProcess decS decA ⟨q, ev, t⟩ c rerr =
      ⟨[], ev ++ (processFrame decS decA (body ++ [BUFFER_DELIMITER])).1,
        ((t || rerr) || decide (BUFFER_SIZE ≤ c.length))
          || (processFrame decS decA (body ++ [BUFFER_DELIMITER])).2⟩ := by
  simp only [recvProcess]
  rw [if_pos hc, hsplit, drainBuffer_frame _ _ hnd]
  simp only [drainBuffer, processFrames, Bool.or_false, List.append_nil]

/-- C1 counterexample: the claim quantifies over arbitrary read-chunk boundaries,
but a valid two-message stream (first conjunct: the two chunks join to the exact
encoding of [Status 4094, Status 0]) whose first read fills the whole 4096-byte
buffer is NOT reconstructed: the size check (size >= BUFFER_SIZE) fires the
termination signal on that read, the second message is never processed, and the
forwarded sequence is [Status 4094] instead of the original two messages. -/
theorem receiver_roundtrip_counterexample :
    joinChunks [(0 : Nat) :: (List.replicate 4094 0 ++ [36]), [0, 36]] =
      encodeStream encStatusModel encAttackModel [Event.status 4094, Event.status 0] ∧
    runReceiver decStatusModel decAttackModel
        [ReadResult.ok ((0 : Nat) :: (List.replicate 4094 0 ++ [36])), ReadResult.ok [0, 36]] =
      ⟨[], [Event.status 4094], true⟩ ∧
    ([Event.status 4094] : List (Event Nat Nat)) ≠ [Event.status 4094, Event.status 0] := by
  have hbody : BUFFER_DELIMITER ∉ (0 : Nat) :: List.replicate 4094 0 := by
    intro h
    rcases List.mem_cons.mp h with h1 | h2
    · simp [BUFFER_DELIMITER] at h1
    · have h3 := (List.mem_replicate.mp h2).2
      simp [BUFFER_DELIMITER] at h3
  have hsplit : ([] : List Nat) ++ ((0 : Nat) :: (List.replicate 4094 0 ++ [36])) =
      ((0 : Nat) :: List.replicate 4094 0) ++ BUFFER_DELIMITER :: [] := by
    simp only [BUFFER_DELIMITER, List.cons_append, List.nil_append]
  have hdec := decStatusModel_enc 4094
  rw [show encStatusModel 4094 = List.replicate 4094 0 from rfl] at hdec
  have hpf : processFrame decStatusModel decAttackModel
      (((0 : Nat) :: List.replicate 4094 0) ++ [BUFFER_DELIMITER]) =
      ([Event.status 4094], false) := by
    rw [List.cons_append]
    simp only [processFrame, PACKET_TYPE_STATUS, dropLast_append_single, hdec,
      Bool.not_true, eq_self_iff_true, if_true]
  refine ⟨?_, ?_, by decide⟩
  · simp only [joinChunks, encodeStream, encodeEvent, encStatusModel, PACKET_TYPE_STATUS,
      BUFFER_DELIMITER, List.replicate_zero, List.append_nil, List.nil_append,
      List.cons_append]
  · have hpos : 0 < ((0 : Nat) :: (List.replicate 4094 0 ++ [36])).length := by
      simp only [List.length_cons]
      omega
    have hsize : decide
        (BUFFER_SIZE ≤ ((0 : Nat) :: (List.replicate 4094 0 ++ [36])).length) = true := by
      simp only [List.length_cons, List.length_append, List.length_replicate]
      rfl
    have hstep1 : recvProcess decStatusModel decAttackModel ⟨[], [], false⟩
        ((0 : Nat) :: (List.replicate 4094 0 ++ [36])) false =
        ⟨[], [Event.status 4094], true⟩ := by
      rw [recvProcess_one_frame decStatusModel decAttackModel [] [] false
        ((0 : Nat) :: (List.replicate 4094 0 ++ [36])) ((0 : Nat) :: List.replicate 4094 0)
        false hsplit hbody hpos, hpf, hsize]
      simp only [List.nil_append, Bool.or_false, Bool.false_or, Bool.or_true]
    rw [runReceiver, show (initialRecvState : RecvState Nat Nat) = ⟨[], [], false⟩ from rfl,
      runReceiverFrom_cons_false,
      show recvStep decStatusModel decAttackModel ⟨[], [], false⟩
          (ReadResult.ok ((0 : Nat) :: (List.replicate 4094 0 ++ [36]))) =
        recvProcess decStatusModel decAttackModel ⟨[], [], false⟩
          ((0 : Nat) :: (List.replicate 4094 0 ++ [36])) false from rfl,
      hstep1, runReceiverFrom_cons_true]

/-- C5 (amended): oversized-read rejection.  The size check in the source is per
single read, not per frame: whenever one conn.Read returns BUFFER_SIZE (4096) or
more bytes, the receiver fires the mutual-termination signal; and when the
accumulated data contains no delimiter, no frame is decoded from it — the bytes
are only buffered.  (The original per-stream phrasing is refuted by the
counterexample: an oversized delimiter-free stream split into smaller reads
terminates nothing.) -/
theorem oversized_read_rejection {σ α : Type} (decS : List Nat → σ × Bool)
    (decA : List Nat → α × Bool) (st : RecvState σ α) (c : List Nat)
    (hlen : BUFFER_SIZE ≤ c.length) (hq : BUFFER_DELIMITER ∉ st.queue)
    (hc : BUFFER_DELIMITER ∉ c) :
    recvStep decS decA st (ReadResult.ok c) = ⟨st.queue ++ c, st.events, true⟩ := by
  rcases st with ⟨q, ev, t⟩
  have hnd : BUFFER_DELIMITER ∉ q ++ c := by
    intro h
    rcases List.mem_append.mp h with h1 | h2
    · exact hq h1
    · exact hc h2
  have hpos : 0 < c.length := Nat.lt_of_lt_of_le (by norm_num [BUFFER_SIZE]) hlen
  rw [show recvStep decS decA ⟨q, ev, t⟩ (ReadResult.ok c) =
      recvProcess decS decA ⟨q, ev, t⟩ c false from rfl,
    recvProcess_no_frame decS decA q ev t c false hnd hpos, decide_eq_true hlen]
  simp only [Bool.or_false, Bool.or_true]

/-- C5 witness: a single read that exactly fills the 4096-byte buffer with
delimiter-free bytes fires the termination signal and decodes nothing. -/
theorem oversized_read_rejection_witness :
    recvStep decStatusModel decAttackModel (⟨[], [], false⟩ : RecvState Nat Nat)
        (ReadResult.ok (List.replicate 4096 5)) =
      ⟨List.replicate 4096 5, [], true⟩ := by
  have h := oversized_read_rejection decStatusModel decAttackModel ⟨[], [], false⟩
    (List.replicate 4096 5)
    (by rw [List.length_replicate]; exact Nat.le_refl _)
    (by intro hm; exact List.not_mem_nil _ hm)
    (by
      intro hm
      have h3 := (List.mem_replicate.mp hm).2
      simp [BUFFER_DELIMITER] at h3)
  rw [List.nil_append] at h
  exact h

/-- C5 counterexample: a stream of 4097 delimiter-free bytes (more than the
4096-byte chunk-size limit before any delimiter) delivered as two reads of 3000
and 1097 bytes terminates nothing: the termination flag stays false and the bytes
just accumulate, refuting the claim that any such stream causes termination. -/
theorem oversized_stream_counterexample :
    runReceiver decStatusModel decAttackModel
        [ReadResult.ok (List.replicate 3000 5), ReadResult.ok (List.replicate 1097 5)] =
      ⟨List.replicate 4097 5, [], false⟩ ∧
    BUFFER_SIZE < (List.replicate (4097 : Nat) (5 : Nat)).length ∧
    BUFFER_DELIMITER ∉ List.replicate (4097 : Nat) (5 : Nat) := by
  have hnd : ∀ n : Nat, BUFFER_DELIMITER ∉ List.replicate n (5 : Nat) := by
    intro n hm
    have h3 := (List.mem_replicate.mp hm).2
    simp [BUFFER_DELIMITER] at h3
  have hcat : List.replicate 3000 (5 : Nat) ++ List.replicate 1097 5 =
      List.replicate 4097 5 := by
    rw [← List.replicate_add]
  refine ⟨?_, by rw [List.length_replicate]; norm_num [BUFFER_SIZE], hnd 4097⟩
  have hsz1 : decide (BUFFER_SIZE ≤ (List.replicate 3000 (5 : Nat)).length) = false := by
    simp only [List.length_replicate]
    rfl
  have hsz2 : decide (BUFFER_SIZE ≤ (List.replicate 1097 (5 : Nat)).length) = false := by
    simp only [List.length_replicate]
    rfl
  have hstep1 : recvProcess decStatusModel decAttackModel ⟨[], [], false⟩
      (List.replicate 3000 (5 : Nat)) false = ⟨List.replicate 3000 5, [], false⟩ := by
    rw [recvProcess_no_frame decStatusModel decAttackModel [] [] false _ false
      (by rw [List.nil_append]; exact hnd 3000) (by rw [List.length_replicate]; norm_num),
      hsz1, List.nil_append]
    rfl
  have hstep2 : recvProcess decStatusModel decAttackModel ⟨List.replicate 3000 5, [], false⟩
      (List.replicate 1097 (5 : Nat)) false = ⟨List.replicate 4097 5, [], false⟩ := by
    rw [recvProcess_no_frame decStatusModel decAttackModel (List.replicate 3000 5) [] false
      _ false (by rw [hcat]; exact hnd 4097) (by rw [List.length_replicate]; norm_num),
      hsz2, hcat]
    rfl
  rw [runReceiver, show (initialRecvState : RecvState Nat Nat) = ⟨[], [], false⟩ from rfl,
    runReceiverFrom_cons_false,
    show recvStep decStatusModel decAttackModel ⟨[], [], false⟩
        (ReadResult.ok (List.replicate 3000 (5 : Nat))) =
      recvProcess decStatusModel decAttackModel ⟨[], [], false⟩
        (List.replicate 3000 (5 : Nat)) false from rfl,
    hstep1, runReceiverFrom_cons_false,
    show recvStep decStatusModel decAttackModel ⟨List.replicate 3000 5, [], false⟩
        (ReadResult.ok (List.replicate 1097 (5 : Nat))) =
      recvProcess decStatusModel decAttackModel ⟨List.replicate 3000 5, [], false⟩
        (List.replicate 1097 (5 : Nat)) false from rfl,
    hstep2]
  rfl

/-- C6 (amended): receiver failure policy.  (1) A clean end-of-stream leaves the
receiver state untouched — the session is not terminated.  (2) Any read error
other than a clean end-of-stream fires the mutual-termination signal during that
iteration.  (3) A Status-frame payload decode failure sets the termination flag
for that frame, but the event built from the partially decoded payload is still
forwarded — the iteration does not stop at the failing frame.  (4) The same holds
for an Attack-frame payload decode failure: the flag is set and the partially
decoded Attack event is still forwarded.  (5) Once the termination signal has
been fired, the receiver processes no further read of the session's stream.
(The original claim's "performs no further processing" holds only from the next
read on: within the failing iteration the receiver still forwards events, see
the counterexample.) -/
theorem receiver_failure_policy {σ α : Type} (decS : List Nat → σ × Bool)
    (decA : List Nat → α × Bool) :
    (∀ st : RecvState σ α, recvStep decS decA st ReadResult.eof = st) ∧
    (∀ (st : RecvState σ α) (c : List Nat),
      (recvStep decS decA st (ReadResult.fail c)).term = true) ∧
    (∀ p : List Nat, processFrame decS decA (PACKET_TYPE_STATUS :: p) =
      ([Event.status (decS p.dropLast).1], !(decS p.dropLast).2)) ∧
    (∀ p : List Nat, processFrame decS decA (PACKET_TYPE_ATTACK :: p) =
      ([Event.attack (decA p.dropLast).1], !(decA p.dropLast).2)) ∧
    (∀ (st : RecvState σ α) (reads : List ReadResult), st.term = true →
      runReceiverFrom decS decA st reads = st) := by
  refine ⟨fun st => rfl, ?_, ?_, ?_, ?_⟩
  · intro st c
    rw [show recvStep decS decA st (ReadResult.fail c) =
        recvProcess decS decA st c true from rfl, recvProcess]
    by_cases hc : 0 < c.length
    · rw [if_pos hc]
      simp
    · rw [if_neg hc]
      simp
  · intro p
    simp only [processFrame, PACKET_TYPE_STATUS, eq_self_iff_true, if_true]
  · intro p
    simp only [processFrame, PACKET_TYPE_STATUS, PACKET_TYPE_ATTACK]
    rw [if_neg (by norm_num), if_true]
  · intro st reads hterm
    induction reads with
    | nil => rfl
    | cons r rs ih =>
      rw [runReceiverFrom, if_pos hterm]

/-- C6 witness: a clean end-of-stream leaves the initial state unchanged, and a
receiver whose termination flag is set ignores a pending read. -/
theorem receiver_failure_policy_witness :
    recvStep decStatusModel decAttackModel (⟨[], [], false⟩ : RecvState Nat Nat)
        ReadResult.eof = ⟨[], [], false⟩ ∧
    runReceiverFrom decStatusModel decAttackModel (⟨[], [], true⟩ : RecvState Nat Nat)
        [ReadResult.ok [0, 36]] = ⟨[], [], true⟩ :=
  ⟨(receiver_failure_policy decStatusModel decAttackModel).1 _,
    (receiver_failure_policy decStatusModel decAttackModel).2.2.2.2 _ _ rfl⟩

/-- C6 counterexample: one read delivers a frame with an undecodable Status
payload followed by a valid Attack frame.  The decode failure fires the
termination signal (term = true), but the receiver does NOT stop processing the
stream at that point: it forwards the partially decoded Status event and then
also decodes and forwards the following Attack event, refuting the claim that the
receiver performs no further processing of the session's stream after a payload
decode failure. -/
theorem decode_failure_counterexample :
    runReceiver decStatusModel decAttackModel [ReadResult.ok [0, 2, 36, 1, 1, 36]] =
      ⟨[], [Event.status 0, Event.attack 1], true⟩ := by decide

/-- C9: a complete delimited frame whose leading type-tag byte is neither
PACKET_TYPE_STATUS (0) nor PACKET_TYPE_ATTACK (1) is silently discarded: it
contributes no event and no termination signal, and processing continues with the
remaining frames exactly as if the frame were absent.  With p = [] this covers
the frame consisting of the delimiter byte alone. -/
theorem unknown_tag_frame_skipped {σ α : Type} (decS : List Nat → σ × Bool)
    (decA : List Nat → α × Bool) (t : Nat) (p : List Nat) (rest : List (List Nat))
    (h0 : t ≠ PACKET_TYPE_STATUS) (h1 : t ≠ PACKET_TYPE_ATTACK) :
    processFrames decS decA ((t :: p) :: rest) = processFrames decS decA rest := by
  simp only [processFrames, processFrame, if_neg h0, if_neg h1, List.nil_append,
    Bool.false_or]

/-- C9 witness: the frame consisting of the delimiter byte alone is skipped. -/
theorem unknown_tag_frame_skipped_witness :
    processFrames decStatusModel decAttackModel [[BUFFER_DELIMITER]] = ([], false) := by
  rw [unknown_tag_frame_skipped decStatusModel decAttackModel BUFFER_DELIMITER [] []
    (by decide) (by decide)]
  rfl

/-- Running the sender from a clean state with a positive fault budget over
broadcast-only events exhausts the budget exactly when the number of failed
writes reaches it, deregistering the user exactly once and panicking; otherwise
it survives with the budget reduced by the number of failed writes and no
deregistration. -/
theorem runSender_broadcast_aux :
    ∀ (events : List SenderEvent) (ft : Int), 0 < ft →
      (∀ e ∈ events, e.isBroadcast = true) →
      runSender ⟨ft, 0⟩ events =
        if (failCount events : Int) < ft
        then (⟨ft - failCount events, 0⟩, SenderExit.ranOut)
        else (⟨0, 1⟩, SenderExit.panicked) := by
  intro events
  induction events with
  | nil =>
    intro ft hft _
    rw [if_pos (by simpa [failCount] using hft)]
    simp [runSender, failCount]
  | cons e rest ih =>
    intro ft hft hb
    have hbe := hb e (by simp)
    cases e with
    | termination => simp [SenderEvent.isBroadcast] at hbe
    | stopSend => simp [SenderEvent.isBroadcast] at hbe
    | forceExit => simp [SenderEvent.isBroadcast] at hbe
    | broadcast p ok =>
      by_cases hf : (p && !ok) = true
      · by_cases h1 : ft - 1 ≤ 0
        · have hft1 : ft = 1 := by omega
          have hstep : runSender ⟨ft, 0⟩ (SenderEvent.broadcast p ok :: rest) =
              (⟨ft - 1, 0 + 1⟩, SenderExit.panicked) := by
            rw [runSender, senderStep, if_pos hf, if_pos h1]
          rw [hstep, if_neg (by
            simp only [failCount, isFailedWrite, hf, if_true]
            push_cast
            omega)]
          rw [hft1]
          norm_num
        · have hstep : runSender ⟨ft, 0⟩ (SenderEvent.broadcast p ok :: rest) =
              runSender ⟨ft - 1, 0⟩ rest := by
            rw [runSender, senderStep, if_pos hf, if_neg h1]
          rw [hstep, ih (ft - 1) (by omega) (fun d hd => hb d (by simp [hd]))]
          have hfc : failCount (SenderEvent.broadcast p ok :: rest) = 1 + failCount rest := by
            simp only [failCount, isFailedWrite, hf, if_true]
          rw [hfc]
          by_cases h2 : (failCount rest : Int) < ft - 1
          · rw [if_pos h2, if_pos (by push_cast; omega)]
            simp only [Prod.mk.injEq, SenderState.mk.injEq, and_true]
            push_cast
            omega
          · rw [if_neg h2, if_neg (by push_cast at h2 ⊢; omega)]
      · have hstep : runSender ⟨ft, 0⟩ (SenderEvent.broadcast p ok :: rest) =
            runSender ⟨ft, 0⟩ rest := by
          rw [runSender, senderStep, if_neg hf]
        have hfc : failCount (SenderEvent.broadcast p ok :: rest) = failCount rest := by
          simp [failCount, isFailedWrite, hf]
        rw [hstep, hfc, ih ft hft (fun d hd => hb d (by simp [hd]))]

/-- C2 (amended): fault-tolerance exhaustion is cumulative, not consecutive.  For
any sequence of broadcast ticks, the sender deregisters the user from the
game-state, user-status, and scoreboard collaborators exactly once and panics at
the tick of the 100th failed write overall — successes in between do not reset
the counter — and with fewer than 100 cumulative failed writes it never
deregisters and keeps running with the budget reduced accordingly. -/
theorem sender_fault_exhaustion (events : List SenderEvent)
    (hb : ∀ e ∈ events, e.isBroadcast = true) :
    runSender initialSenderState events =
      if (failCount events : Int) < 100
      then (⟨100 - failCount events, 0⟩, SenderExit.ranOut)
      else (⟨0, 1⟩, SenderExit.panicked) :=
  runSender_broadcast_aux events 100 (by norm_num) hb

/-- C2 witness: one hundred consecutive failed writes deregister once and panic. -/
theorem sender_fault_exhaustion_witness :
    runSender initialSenderState (List.replicate 100 (SenderEvent.broadcast true false)) =
      (⟨0, 1⟩, SenderExit.panicked) := by
  have h := sender_fault_exhaustion (List.replicate 100 (SenderEvent.broadcast true false))
    (by decide)
  rwa [if_neg (by decide)] at h

/-- C2 counterexample: two separated bursts of 60 failed writes with a successful
write in between — every run of consecutive failures stays at 60, far below the
100 threshold — still deregister the user (exactly once) and panic at the 100th
cumulative failure, refuting the claim that write failures below the threshold of
consecutive failures never trigger any deregistration or teardown. -/
theorem sender_nonconsecutive_failures_counterexample :
    runSender initialSenderState
        (List.replicate 60 (SenderEvent.broadcast true false) ++
          SenderEvent.broadcast true true ::
            List.replicate 60 (SenderEvent.broadcast true false)) =
      (⟨0, 1⟩, SenderExit.panicked) := by decide

/-- C3: state-machine safety of SetClientInformation.  On any slot whose status is
not PULLED_OUT the call returns the invalid-state error, immediately emits the
force-exit signal, and leaves the slot — its ownerUserId, client IP and port, and
status — exactly as before; on a PULLED_OUT slot it succeeds with no signal, sets
those fields, and moves the status to CLIENT_INFORMATION_RECEIVED. -/
theorem set_client_information_state_machine (w : Worker) (userId : String)
    (ip : Option (List Nat)) (port : Int) :
    (w.status ≠ WorkerStatus.PULLED_OUT →
      SetClientInformation w userId ip port =
        ⟨w, some "INVALID STATUS CHANGE: WORKER STATUS NOT \"IDLE\"", true⟩) ∧
    (w.status = WorkerStatus.PULLED_OUT →
      SetClientInformation w userId ip port =
        ⟨{ w with
            status := WorkerStatus.CLIENT_INFORMATION_RECEIVED
            ownerUserID := userId
            clientIP := ip
            clientPort := port }, none, false⟩) := by
  constructor
  · intro h
    simp only [SetClientInformation]
    rw [if_pos h]
  · intro h
    simp only [SetClientInformation]
    rw [if_neg (by simp [h])]

/-- C3 witness: a WORKING slot is rejected untouched with a force-exit signal,
and a PULLED_OUT slot is configured and moved to CLIENT_INFORMATION_RECEIVED. -/
theorem set_client_information_witness :
    SetClientInformation ⟨WorkerStatus.WORKING, "", none, 0, false, 7⟩ "u" none 0 =
      ⟨⟨WorkerStatus.WORKING, "", none, 0, false, 7⟩,
        some "INVALID STATUS CHANGE: WORKER STATUS NOT \"IDLE\"", true⟩ ∧
    SetClientInformation ⟨WorkerStatus.PULLED_OUT, "", none, 0, false, 7⟩ "u"
        (some [127, 0, 0, 1]) 9 =
      ⟨⟨WorkerStatus.CLIENT_INFORMATION_RECEIVED, "u", some [127, 0, 0, 1], 9, false, 7⟩,
        none, false⟩ :=
  ⟨(set_client_information_state_machine ⟨WorkerStatus.WORKING, "", none, 0, false, 7⟩
      "u" none 0).1 (by decide),
    (set_client_information_state_machine ⟨WorkerStatus.PULLED_OUT, "", none, 0, false, 7⟩
      "u" (some [127, 0, 0, 1]) 9).2 rfl⟩

/-- C4: StartSend guard.  StartSendUserRelatedDataToClient moves a slot from
CLIENT_INFORMATION_RECEIVED to WORKING and starts the send routine; whenever the
slot is not in CLIENT_INFORMATION_RECEIVED, or no send routine is registered, it
returns the invalid-state error and emits a force-exit signal without changing
the status and without starting anything. -/
theorem start_send_guard (w : Worker) :
    (w.status ≠ WorkerStatus.CLIENT_INFORMATION_RECEIVED →
      StartSendUserRelatedDataToClient w =
        ⟨w, some "INVALID STATUS CHANGE: WORKER STATUS NOT \"CLIENT_INFORMATION_RECEIVED\"",
          true, false⟩) ∧
    (w.status = WorkerStatus.CLIENT_INFORMATION_RECEIVED → w.hasSendRoutine = false →
      StartSendUserRelatedDataToClient w =
        ⟨w,
          some "INVALID STATUS CHANGE: worker does not have mandatory property(SendUserRelatedDataToClient)",
          true, false⟩) ∧
    (w.status = WorkerStatus.CLIENT_INFORMATION_RECEIVED → w.hasSendRoutine = true →
      StartSendUserRelatedDataToClient w =
        ⟨{ w with status := WorkerStatus.WORKING }, none, false, true⟩) := by
  refine ⟨?_, ?_, ?_⟩
  · intro h
    simp only [StartSendUserRelatedDataToClient]
    rw [if_pos h]
  · intro h hr
    simp only [StartSendUserRelatedDataToClient]
    rw [if_neg (by simp [h]), if_pos (by simp [hr])]
  · intro h hr
    simp only [StartSendUserRelatedDataToClient]
    rw [if_neg (by simp [h]), if_neg (by simp [hr])]

/-- C4 witness: the three guard outcomes at concrete slots. -/
theorem start_send_guard_witness :
    StartSendUserRelatedDataToClient ⟨WorkerStatus.PULLED_OUT, "u", none, 0, true, 7⟩ =
      ⟨⟨WorkerStatus.PULLED_OUT, "u", none, 0, true, 7⟩,
        some "INVALID STATUS CHANGE: WORKER STATUS NOT \"CLIENT_INFORMATION_RECEIVED\"",
        true, false⟩ ∧
    StartSendUserRelatedDataToClient
        ⟨WorkerStatus.CLIENT_INFORMATION_RECEIVED, "u", none, 0, false, 7⟩ =
      ⟨⟨WorkerStatus.CLIENT_INFORMATION_RECEIVED, "u", none, 0, false, 7⟩,
        some "INVALID STATUS CHANGE: worker does not have mandatory property(SendUserRelatedDataToClient)",
        true, false⟩ ∧
    StartSendUserRelatedDataToClient
        ⟨WorkerStatus.CLIENT_INFORMATION_RECEIVED, "u", none, 0, true, 7⟩ =
      ⟨⟨WorkerStatus.WORKING, "u", none, 0, true, 7⟩, none, false, true⟩ :=
  ⟨(start_send_guard ⟨WorkerStatus.PULLED_OUT, "u", none, 0, true, 7⟩).1 (by decide),
    (start_send_guard ⟨WorkerStatus.CLIENT_INFORMATION_RECEIVED, "u", none, 0, false, 7⟩).2.1
      rfl rfl,
    (start_send_guard ⟨WorkerStatus.CLIENT_INFORMATION_RECEIVED, "u", none, 0, true, 7⟩).2.2
      rfl rfl⟩

/-- C7: processor shutdown behavior.  On the shared mutual-termination signal the
event processor marks its paired slot's status TERMINATED and returns cleanly,
processing nothing further; on a force-exit signal it panics (its deferred
mutual-termination send then tears down the paired receiver and sender), leaving
the slot status untouched. -/
theorem processor_termination_behavior (st : ProcState) (rest : List ProcEvent) :
    runProcessor st (ProcEvent.mutualTermination :: rest) =
      (⟨WorkerStatus.TERMINATED, st.appliedUpdates⟩, ProcExit.returned) ∧
    runProcessor st (ProcEvent.forceExit :: rest) = (st, ProcExit.panicked) :=
  ⟨rfl, rfl⟩

/-- C8: startup capacity invariant.  NewServer panics before serving exactly when
the pool does not hold the configured capacity of AVAILABLE slots, and proceeds
with construction exactly when it does. -/
theorem startup_capacity_invariant (workerCount : Nat) (pool : List Worker) :
    (NewServer workerCount pool = ServerInit.panicked ↔
      GetAvailableWorkerCount pool ≠ workerCount) ∧
    (NewServer workerCount pool = ServerInit.running ↔
      GetAvailableWorkerCount pool = workerCount) := by
  unfold NewServer
  split_ifs with h
  · simp [h]
  · simp [h, not_ne_iff.mp h]

/-- C10: the login handler ignores the errors of SetClientInformation and
StartSendUserRelatedDataToClient.  For every request that passes input validation
and obtains a slot from Pull — whatever state that slot is in, including states
in which both calls fail and force-exit the session — the handler answers
HTTP 200 with the slot's port and writes score 0 for the user into the
scoreboard. -/
theorem login_handler_ignores_state_errors (userId : String) (cp : Int) (ip : List Nat)
    (w : Worker) (sb : String → Option Int) (h : userId ≠ "") :
    (handleGetWorkerPort userId (some cp) (some ip) (some w) sb).statusCode = 200 ∧
    (handleGetWorkerPort userId (some cp) (some ip) (some w) sb).body = toString w.port ∧
    (handleGetWorkerPort userId (some cp) (some ip) (some w) sb).scoreboard userId =
      some 0 := by
  have hval : ¬((some ip : Option (List Nat)) = none ∨ (some cp : Option Int) = none ∨
      userId = "") := by
    simp [h]
  simp only [handleGetWorkerPort, if_neg hval]
  simp

/-- C10 witness: a slot pulled in the wrong state (TERMINATED, no send routine) —
both slot calls fail and force-exit — still yields HTTP 200 with the slot's port
and a zero scoreboard entry. -/
theorem login_handler_witness :
    (handleGetWorkerPort "u" (some 3) (some [127, 0, 0, 1])
        (some ⟨WorkerStatus.TERMINATED, "", none, 0, false, 9⟩) (fun _ => none)).statusCode =
      200 ∧
    (handleGetWorkerPort "u" (some 3) (some [127, 0, 0, 1])
        (some ⟨WorkerStatus.TERMINATED, "", none, 0, false, 9⟩) (fun _ => none)).body =
      toString (9 : Nat) ∧
    (handleGetWorkerPort "u" (some 3) (some [127, 0, 0, 1])
        (some ⟨WorkerStatus.TERMINATED, "", none, 0, false, 9⟩) (fun _ => none)).scoreboard
        "u" = some 0 :=
  login_handler_ignores_state_errors "u" 3 [127, 0, 0, 1]
    ⟨WorkerStatus.TERMINATED, "", none, 0, false, 9⟩ (fun _ => none) (by decide)
